import Mathlib

/-!
Verification of the Sniper trading system against its design specification.

The Rust source is shallowly embedded: each Rust function below is a direct
translation of the function of the same name, with `f64` and
`rust_decimal::Decimal` prices/quantities modelled as `ℚ`, `u64` sequence
numbers as `ℕ`, and `Vec` as `List`.  Rust's stable `sort_by` with a key
comparator is modelled by `List.insertionSort` with the comparator's
relation (a stable sort; only sortedness and the permutation property are
used in proofs, and concrete evaluations involve duplicate-free keys, for
which every stable sort agrees).
-/

namespace Sniper

/-- Price level of the order book, from `src/data_handling/mod.rs`
(`OrderBookLevel { price: f64, quantity: f64 }`), the level type used by
`src/orderbook.rs`. -/
structure OrderBookLevel where
  price : ℚ
  quantity : ℚ
  deriving DecidableEq

/-- Embedding of `DepthSnapshot` from `src/market_stream.rs`: symbol, bid levels, ask
levels and the snapshot sequence number `last_updated_id`. -/
structure DepthSnapshot where
  symbol : String
  bids : List OrderBookLevel
  asks : List OrderBookLevel
  last_updated_id : ℕ
  deriving DecidableEq

/-- Embedding of `DepthUpdate` from `src/market_stream.rs`: a delta event carrying the
changed bid/ask levels and its first/final sequence numbers. -/
structure DepthUpdate where
  symbol : String
  bids : List OrderBookLevel
  asks : List OrderBookLevel
  first_updated_id : ℕ
  final_update_id : ℕ
  deriving DecidableEq

/-- Embedding of `OrderBook` from `src/orderbook.rs`: bid ladder, ask ladder and the
sequence cursor `last_update_id`. -/
structure OrderBook where
  bids : List OrderBookLevel
  asks : List OrderBookLevel
  last_update_id : ℕ
  deriving DecidableEq

/-- The comparator passed to `sort_by` for bids in `src/orderbook.rs`
(`b.price.partial_cmp(&a.price)`): descending by price. -/
def bidOrder (a b : OrderBookLevel) : Prop := b.price ≤ a.price

/-- The comparator passed to `sort_by` for asks in `src/orderbook.rs`
(`a.price.partial_cmp(&b.price)`): ascending by price. -/
def askOrder (a b : OrderBookLevel) : Prop := a.price ≤ b.price

instance : DecidableRel bidOrder :=
  fun a b => inferInstanceAs (Decidable (b.price ≤ a.price))

instance : DecidableRel askOrder :=
  fun a b => inferInstanceAs (Decidable (a.price ≤ b.price))

instance : IsTotal OrderBookLevel bidOrder :=
  ⟨fun a b => le_total b.price a.price⟩

instance : IsTotal OrderBookLevel askOrder :=
  ⟨fun a b => le_total a.price b.price⟩

instance : IsTrans OrderBookLevel bidOrder :=
  ⟨fun _ _ _ h1 h2 => le_trans h2 h1⟩

instance : IsTrans OrderBookLevel askOrder :=
  ⟨fun _ _ _ h1 h2 => le_trans h1 h2⟩

/-- Embedding of `OrderBook::initialize` from `src/orderbook.rs` (renamed `initBook`
here): empty sides, cursor 0. -/
def OrderBook.initBook : OrderBook :=
  { bids := [], asks := [], last_update_id := 0 }

/-- Embedding of `OrderBook::apply_snapshots` from `src/orderbook.rs`: unconditionally
replaces both sides with the snapshot's levels, sorts bids descending and
asks ascending by price, and sets the cursor to the snapshot's sequence
number.  The previous book state is discarded entirely. -/
def OrderBook.apply_snapshots (_b : OrderBook) (snapshot : DepthSnapshot) : OrderBook :=
  { bids := List.insertionSort bidOrder snapshot.bids
    asks := List.insertionSort askOrder snapshot.asks
    last_update_id := snapshot.last_updated_id }

/-- The per-change bid mutation of `OrderBook::apply_updates`
(`src/orderbook.rs` lines 46-53): update the quantity of the first level
with matching price, or push the new level at the end. -/
def upsertBid : List OrderBookLevel → OrderBookLevel → List OrderBookLevel
  | [], c => [c]
  | x :: xs, c =>
    if x.price = c.price then { x with quantity := c.quantity } :: xs
    else x :: upsertBid xs c

/-- The per-change ask mutation of `OrderBook::apply_updates`
(`src/orderbook.rs` lines 62-68).  The source assigns
`existing.price = ask.price` — the price field, found by price equality, is
rewritten to itself and the quantity of an existing level is never updated;
the embedding reproduces this faithfully. -/
def upsertAsk : List OrderBookLevel → OrderBookLevel → List OrderBookLevel
  | [], c => [c]
  | x :: xs, c =>
    if x.price = c.price then { x with price := c.price } :: xs
    else x :: upsertAsk xs c

/-- One iteration of the bid loop of `OrderBook::apply_updates`
(`src/orderbook.rs` lines 42-56): quantity 0 removes every level at that
price, otherwise upsert and re-sort descending. -/
def applyBidChange (l : List OrderBookLevel) (c : OrderBookLevel) : List OrderBookLevel :=
  if c.quantity = 0 then l.filter (fun x => x.price != c.price)
  else List.insertionSort bidOrder (upsertBid l c)

/-- One iteration of the ask loop of `OrderBook::apply_updates`
(`src/orderbook.rs` lines 58-72): quantity 0 removes every level at that
price, otherwise (buggy) upsert and re-sort ascending. -/
def applyAskChange (l : List OrderBookLevel) (c : OrderBookLevel) : List OrderBookLevel :=
  if c.quantity = 0 then l.filter (fun x => x.price != c.price)
  else List.insertionSort askOrder (upsertAsk l c)

/-- Embedding of `OrderBook::apply_updates` from `src/orderbook.rs`: a delta whose
`final_update_id` is at most the cursor is discarded (returns `false`);
any other delta is applied change-by-change to both sides and the cursor is
set to `final_update_id` (returns `true`).  There is no check of
`first_updated_id` anywhere in the function. -/
def OrderBook.apply_updates (b : OrderBook) (updates : DepthUpdate) : OrderBook × Bool :=
  if updates.final_update_id ≤ b.last_update_id then (b, false)
  else
    ({ bids := updates.bids.foldl applyBidChange b.bids
       asks := updates.asks.foldl applyAskChange b.asks
       last_update_id := updates.final_update_id }, true)

/-- Embedding of `OrderBook::best_bid` from `src/orderbook.rs`:
`self.bids.first().map_or(0.0, |bid| bid.price)`. -/
def OrderBook.best_bid (b : OrderBook) : ℚ :=
  (b.bids.head?.map (fun bid => bid.price)).getD 0

/-- Embedding of `OrderBook::best_ask` from `src/orderbook.rs`:
`self.asks.first().map_or(0.0, |ask| ask.price)`. -/
def OrderBook.best_ask (b : OrderBook) : ℚ :=
  (b.asks.head?.map (fun ask => ask.price)).getD 0

/-- Embedding of `OrderBook::mid_price` from `src/orderbook.rs`. -/
def OrderBook.mid_price (b : OrderBook) : ℚ :=
  (b.best_bid + b.best_ask) / 2

/-- Embedding of `MarketEvent` from `src/market_stream.rs`: a snapshot or a delta. -/
inductive MarketEvent where
  | snapshot : DepthSnapshot → MarketEvent
  | update : DepthUpdate → MarketEvent

/-- Application of one feed event to the book, as the consumer of a
`MarketEvent` stream does: snapshots via `apply_snapshots`, deltas via
`apply_updates` (dropping the returned flag). -/
def OrderBook.applyEvent (b : OrderBook) : MarketEvent → OrderBook
  | MarketEvent.snapshot s => b.apply_snapshots s
  | MarketEvent.update u => (b.apply_updates u).1

/-- Application of a finite sequence of feed events, in order. -/
def OrderBook.applyEvents (b : OrderBook) (es : List MarketEvent) : OrderBook :=
  es.foldl OrderBook.applyEvent b

/-- Strictly descending prices: the bid-side ladder invariant of the spec. -/
def strictBid (l : List OrderBookLevel) : Prop :=
  l.Pairwise (fun x y => y.price < x.price)

/-- Strictly ascending prices: the ask-side ladder invariant of the spec. -/
def strictAsk (l : List OrderBookLevel) : Prop :=
  l.Pairwise (fun x y => x.price < y.price)

/-- Pairwise-distinct prices within one side. -/
def distinctPrices (l : List OrderBookLevel) : Prop :=
  l.Pairwise (fun x y => x.price ≠ y.price)

/-- The spec's ladder invariant: bids strictly descending, asks strictly
ascending (which already forbids duplicate prices on a side). -/
def ladderInvariant (b : OrderBook) : Prop :=
  strictBid b.bids ∧ strictAsk b.asks

instance (l : List OrderBookLevel) : Decidable (strictBid l) :=
  inferInstanceAs (Decidable (l.Pairwise (fun (x y : OrderBookLevel) => y.price < x.price)))

instance (l : List OrderBookLevel) : Decidable (strictAsk l) :=
  inferInstanceAs (Decidable (l.Pairwise (fun (x y : OrderBookLevel) => x.price < y.price)))

instance (l : List OrderBookLevel) : Decidable (distinctPrices l) :=
  inferInstanceAs (Decidable (l.Pairwise (fun (x y : OrderBookLevel) => x.price ≠ y.price)))

instance (b : OrderBook) : Decidable (ladderInvariant b) :=
  inferInstanceAs (Decidable (strictBid b.bids ∧ strictAsk b.asks))

/-- Claim C1 (counterexample).  The claim says a delta with
`firstSeq > cursor+1` reports a gap and leaves bids/asks unchanged.  On the
book with cursor 10, the delta with `first_updated_id = 15` (a gap: 15 >
10+1) and one bid change is applied: `apply_updates` returns `true` and the
bid side is mutated. -/
theorem C1_gap_counterexample :
    (15 : ℕ) > 10 + 1 ∧
    (OrderBook.apply_updates ⟨[⟨99, 1⟩], [⟨101, 1⟩], 10⟩ ⟨"BTCUSDT", [⟨50, 1⟩], [], 15, 15⟩).2
      = true ∧
    (OrderBook.apply_updates ⟨[⟨99, 1⟩], [⟨101, 1⟩], 10⟩ ⟨"BTCUSDT", [⟨50, 1⟩], [], 15, 15⟩).1.bids
      ≠ [⟨99, 1⟩] := by
  decide

/-- Claim C1 (amended).  `OrderBook::apply_updates` performs no gap check:
a delta with `first_updated_id > cursor + 1` and `final_update_id > cursor`
is applied as if in sequence — the function returns `true`, the cursor is
advanced to `final_update_id`, and both sides are mutated according to the
delta's changes. -/
theorem C1_no_gap_detection (b : OrderBook) (u : DepthUpdate)
    (hgap : b.last_update_id + 1 < u.first_updated_id)
    (hfresh : b.last_update_id < u.final_update_id) :
    (b.apply_updates u).2 = true ∧
    (b.apply_updates u).1.last_update_id = u.final_update_id ∧
    (b.apply_updates u).1.bids = u.bids.foldl applyBidChange b.bids ∧
    (b.apply_updates u).1.asks = u.asks.foldl applyAskChange b.asks := by
  unfold OrderBook.apply_updates
  rw [if_neg (not_le.mpr hfresh)]
  exact ⟨rfl, rfl, rfl, rfl⟩

/-- Witness for C1: the amended theorem at the concrete gap delta of the
counterexample. -/
theorem C1_no_gap_detection_witness :
    ((10 : ℕ) + 1 < 15 ∧ (10 : ℕ) < 15) ∧
    ((OrderBook.apply_updates ⟨[⟨99, 1⟩], [⟨101, 1⟩], 10⟩ ⟨"BTCUSDT", [⟨50, 1⟩], [], 15, 15⟩).2
        = true ∧
      (OrderBook.apply_updates ⟨[⟨99, 1⟩], [⟨101, 1⟩], 10⟩
          ⟨"BTCUSDT", [⟨50, 1⟩], [], 15, 15⟩).1.last_update_id = 15 ∧
      (OrderBook.apply_updates ⟨[⟨99, 1⟩], [⟨101, 1⟩], 10⟩
          ⟨"BTCUSDT", [⟨50, 1⟩], [], 15, 15⟩).1.bids
        = List.foldl applyBidChange [⟨99, 1⟩] [⟨50, 1⟩] ∧
      (OrderBook.apply_updates ⟨[⟨99, 1⟩], [⟨101, 1⟩], 10⟩
          ⟨"BTCUSDT", [⟨50, 1⟩], [], 15, 15⟩).1.asks
        = List.foldl applyAskChange [⟨101, 1⟩] []) :=
  ⟨by decide,
    C1_no_gap_detection ⟨[⟨99, 1⟩], [⟨101, 1⟩], 10⟩ ⟨"BTCUSDT", [⟨50, 1⟩], [], 15, 15⟩
      (by decide) (by decide)⟩

/-- Claim C2 (code bug).  On the book with asks `[101@1]` and cursor 10, the
in-sequence delta (first 11, final 11) changing ask 101 to quantity 5 leaves
the ask quantity at 1 — the source assigns `existing.price = ask.price`
instead of updating the quantity — while the symmetric bid-side input is
updated to quantity 5 as the claim states. -/
theorem C2_ask_quantity_never_updated :
    (OrderBook.apply_updates ⟨[], [⟨101, 1⟩], 10⟩ ⟨"BTCUSDT", [], [⟨101, 5⟩], 11, 11⟩).1.asks
      = [⟨101, 1⟩] ∧
    (OrderBook.apply_updates ⟨[], [⟨101, 1⟩], 10⟩ ⟨"BTCUSDT", [], [⟨101, 5⟩], 11, 11⟩).2
      = true ∧
    (OrderBook.apply_updates ⟨[⟨101, 1⟩], [], 10⟩ ⟨"BTCUSDT", [⟨101, 5⟩], [], 11, 11⟩).1.bids
      = [⟨101, 5⟩] := by
  decide

/-- Claim C3 (counterexample).  After Snapshot(seq 10, bid 99@1, ask 101@1)
followed by Delta(first 11, final 11, bid 99@0) the bid side is empty, yet
`best_bid` returns the price 0 — there is no "no market" sentinel distinct
from price 0. -/
theorem C3_sentinel_counterexample :
    (OrderBook.apply_updates
        (OrderBook.apply_snapshots OrderBook.initBook ⟨"BTCUSDT", [⟨99, 1⟩], [⟨101, 1⟩], 10⟩)
        ⟨"BTCUSDT", [⟨99, 0⟩], [], 11, 11⟩).1.bids = [] ∧
    OrderBook.best_bid
      (OrderBook.apply_updates
        (OrderBook.apply_snapshots OrderBook.initBook ⟨"BTCUSDT", [⟨99, 1⟩], [⟨101, 1⟩], 10⟩)
        ⟨"BTCUSDT", [⟨99, 0⟩], [], 11, 11⟩).1 = 0 := by
  decide

/-- Claim C3 (amended).  `best_bid`/`best_ask` return the price at the head
of the side when non-empty and the plain price 0 when the side is empty
(there is no sentinel value distinct from 0); in the end-to-end scenario
Snapshot(seq 10, bid 99@1, ask 101@1) then Delta(first 11, final 11,
bid 99@0), the 99 bid is removed, the cursor becomes 11, and `best_bid`
returns 0. -/
theorem C3_best_quotes (x : OrderBookLevel) (bs as : List OrderBookLevel) (n : ℕ) :
    OrderBook.best_bid ⟨x :: bs, as, n⟩ = x.price ∧
    OrderBook.best_bid ⟨[], as, n⟩ = 0 ∧
    OrderBook.best_ask ⟨bs, x :: as, n⟩ = x.price ∧
    OrderBook.best_ask ⟨bs, [], n⟩ = 0 ∧
    (OrderBook.apply_updates
        (OrderBook.apply_snapshots OrderBook.initBook ⟨"BTCUSDT", [⟨99, 1⟩], [⟨101, 1⟩], 10⟩)
        ⟨"BTCUSDT", [⟨99, 0⟩], [], 11, 11⟩).1.bids = [] ∧
    (OrderBook.apply_updates
        (OrderBook.apply_snapshots OrderBook.initBook ⟨"BTCUSDT", [⟨99, 1⟩], [⟨101, 1⟩], 10⟩)
        ⟨"BTCUSDT", [⟨99, 0⟩], [], 11, 11⟩).1.last_update_id = 11 ∧
    OrderBook.best_bid
      (OrderBook.apply_updates
        (OrderBook.apply_snapshots OrderBook.initBook ⟨"BTCUSDT", [⟨99, 1⟩], [⟨101, 1⟩], 10⟩)
        ⟨"BTCUSDT", [⟨99, 0⟩], [], 11, 11⟩).1 = 0 := by
  refine ⟨rfl, rfl, rfl, rfl, by decide, by decide, by decide⟩

/-- Every price occurring in `upsertBid l c` already occurs in `l` or is the
changed price `c.price`. -/
theorem upsertBid_mem_price {l : List OrderBookLevel} {c y : OrderBookLevel}
    (h : y ∈ upsertBid l c) : (∃ z ∈ l, y.price = z.price) ∨ y.price = c.price := by
  induction l with
  | nil =>
    simp only [upsertBid, List.mem_singleton] at h
    exact Or.inr (h ▸ rfl)
  | cons x xs ih =>
    by_cases hp : x.price = c.price
    · simp only [upsertBid, if_pos hp, List.mem_cons] at h
      rcases h with h | h
      · exact Or.inl ⟨x, List.mem_cons_self x xs, by rw [h]⟩
      · exact Or.inl ⟨y, List.mem_cons_of_mem x h, rfl⟩
    · simp only [upsertBid, if_neg hp, List.mem_cons] at h
      rcases h with h | h
      · exact Or.inl ⟨x, List.mem_cons_self x xs, by rw [h]⟩
      · rcases ih h with ⟨z, hz, hzp⟩ | hcp
        · exact Or.inl ⟨z, List.mem_cons_of_mem x hz, hzp⟩
        · exact Or.inr hcp

/-- Every price occurring in `upsertAsk l c` already occurs in `l` or is the
changed price `c.price`. -/
theorem upsertAsk_mem_price {l : List OrderBookLevel} {c y : OrderBookLevel}
    (h : y ∈ upsertAsk l c) : (∃ z ∈ l, y.price = z.price) ∨ y.price = c.price := by
  induction l with
  | nil =>
    simp only [upsertAsk, List.mem_singleton] at h
    exact Or.inr (h ▸ rfl)
  | cons x xs ih =>
    by_cases hp : x.price = c.price
    · simp only [upsertAsk, if_pos hp, List.mem_cons] at h
      rcases h with h | h
      · exact Or.inr (h ▸ rfl)
      · exact Or.inl ⟨y, List.mem_cons_of_mem x h, rfl⟩
    · simp only [upsertAsk, if_neg hp, List.mem_cons] at h
      rcases h with h | h
      · exact Or.inl ⟨x, List.mem_cons_self x xs, by rw [h]⟩
      · rcases ih h with ⟨z, hz, hzp⟩ | hcp
        · exact Or.inl ⟨z, List.mem_cons_of_mem x hz, hzp⟩
        · exact Or.inr hcp

/-- The function `upsertBid` keeps the prices of a side pairwise distinct. -/
theorem upsertBid_distinct {l : List OrderBookLevel} {c : OrderBookLevel}
    (h : distinctPrices l) : distinctPrices (upsertBid l c) := by
  induction l with
  | nil => exact List.pairwise_singleton _ c
  | cons x xs ih =>
    rcases List.pairwise_cons.mp h with ⟨hx, hxs⟩
    by_cases hp : x.price = c.price
    · unfold upsertBid
      rw [if_pos hp]
      exact List.pairwise_cons.mpr ⟨fun y hy => hx y hy, hxs⟩
    · unfold upsertBid
      rw [if_neg hp]
      refine List.pairwise_cons.mpr ⟨fun y hy => ?_, ih hxs⟩
      rcases upsertBid_mem_price hy with ⟨z, hz, hzp⟩ | hcp
      · exact fun hxy => hx z hz (hxy.trans hzp)
      · exact fun hxy => hp (hxy.trans hcp)

/-- The function `upsertAsk` keeps the prices of a side pairwise distinct. -/
theorem upsertAsk_distinct {l : List OrderBookLevel} {c : OrderBookLevel}
    (h : distinctPrices l) : distinctPrices (upsertAsk l c) := by
  induction l with
  | nil => exact List.pairwise_singleton _ c
  | cons x xs ih =>
    rcases List.pairwise_cons.mp h with ⟨hx, hxs⟩
    by_cases hp : x.price = c.price
    · unfold upsertAsk
      rw [if_pos hp]
      refine List.pairwise_cons.mpr ⟨fun y hy => ?_, hxs⟩
      have : ({ x with price := c.price } : OrderBookLevel).price = x.price := by
        simp [hp]
      rw [this]
      exact hx y hy
    · unfold upsertAsk
      rw [if_neg hp]
      refine List.pairwise_cons.mpr ⟨fun y hy => ?_, ih hxs⟩
      rcases upsertAsk_mem_price hy with ⟨z, hz, hzp⟩ | hcp
      · exact fun hxy => hx z hz (hxy.trans hzp)
      · exact fun hxy => hp (hxy.trans hcp)

/-- Distinctness of prices transfers across any permutation, in particular
across re-sorting. -/
theorem distinctPrices_of_perm {l l' : List OrderBookLevel}
    (hp : l.Perm l') (h : distinctPrices l) : distinctPrices l' :=
  (List.Perm.pairwise_iff (fun hab => Ne.symm hab) hp).mp h

/-- A side sorted weakly descending with pairwise-distinct prices is
strictly descending. -/
theorem strictBid_of_sorted_distinct {l : List OrderBookLevel}
    (hs : List.Sorted bidOrder l) (hd : distinctPrices l) : strictBid l := by
  have hand : l.Pairwise (fun x y => bidOrder x y ∧ x.price ≠ y.price) :=
    List.pairwise_and_iff.mpr ⟨hs, hd⟩
  exact hand.imp (fun hab => lt_of_le_of_ne hab.1 (Ne.symm hab.2))

/-- A side sorted weakly ascending with pairwise-distinct prices is
strictly ascending. -/
theorem strictAsk_of_sorted_distinct {l : List OrderBookLevel}
    (hs : List.Sorted askOrder l) (hd : distinctPrices l) : strictAsk l := by
  have hand : l.Pairwise (fun x y => askOrder x y ∧ x.price ≠ y.price) :=
    List.pairwise_and_iff.mpr ⟨hs, hd⟩
  exact hand.imp (fun hab => lt_of_le_of_ne hab.1 hab.2)

/-- A strictly descending side has pairwise-distinct prices. -/
theorem distinct_of_strictBid {l : List OrderBookLevel} (h : strictBid l) :
    distinctPrices l :=
  h.imp (fun hab => ne_of_gt hab)

/-- A strictly ascending side has pairwise-distinct prices. -/
theorem distinct_of_strictAsk {l : List OrderBookLevel} (h : strictAsk l) :
    distinctPrices l :=
  h.imp (fun hab => ne_of_lt hab)

/-- One bid change keeps the bid ladder strictly descending. -/
theorem applyBidChange_strict {l : List OrderBookLevel} {c : OrderBookLevel}
    (h : strictBid l) : strictBid (applyBidChange l c) := by
  unfold applyBidChange
  by_cases hq : c.quantity = 0
  · rw [if_pos hq]
    exact h.filter _
  · rw [if_neg hq]
    have hd : distinctPrices (upsertBid l c) := upsertBid_distinct (distinct_of_strictBid h)
    have hd' : distinctPrices (List.insertionSort bidOrder (upsertBid l c)) :=
      distinctPrices_of_perm (List.perm_insertionSort bidOrder (upsertBid l c)).symm hd
    exact strictBid_of_sorted_distinct (List.sorted_insertionSort bidOrder _) hd'

/-- One ask change keeps the ask ladder strictly ascending. -/
theorem applyAskChange_strict {l : List OrderBookLevel} {c : OrderBookLevel}
    (h : strictAsk l) : strictAsk (applyAskChange l c) := by
  unfold applyAskChange
  by_cases hq : c.quantity = 0
  · rw [if_pos hq]
    exact h.filter _
  · rw [if_neg hq]
    have hd : distinctPrices (upsertAsk l c) := upsertAsk_distinct (distinct_of_strictAsk h)
    have hd' : distinctPrices (List.insertionSort askOrder (upsertAsk l c)) :=
      distinctPrices_of_perm (List.perm_insertionSort askOrder (upsertAsk l c)).symm hd
    exact strictAsk_of_sorted_distinct (List.sorted_insertionSort askOrder _) hd'

/-- The whole bid loop of `apply_updates` keeps the bid ladder strictly
descending. -/
theorem foldl_applyBidChange_strict (cs : List OrderBookLevel) :
    ∀ {l : List OrderBookLevel}, strictBid l → strictBid (cs.foldl applyBidChange l) := by
  induction cs with
  | nil => exact fun h => h
  | cons c cs ih => exact fun h => ih (applyBidChange_strict h)

/-- The whole ask loop of `apply_updates` keeps the ask ladder strictly
ascending. -/
theorem foldl_applyAskChange_strict (cs : List OrderBookLevel) :
    ∀ {l : List OrderBookLevel}, strictAsk l → strictAsk (cs.foldl applyAskChange l) := by
  induction cs with
  | nil => exact fun h => h
  | cons c cs ih => exact fun h => ih (applyAskChange_strict h)

/-- The function `apply_updates` preserves the ladder invariant (for any delta). -/
theorem apply_updates_invariant (b : OrderBook) (u : DepthUpdate)
    (h : ladderInvariant b) : ladderInvariant (b.apply_updates u).1 := by
  unfold OrderBook.apply_updates
  by_cases hc : u.final_update_id ≤ b.last_update_id
  · rw [if_pos hc]
    exact h
  · rw [if_neg hc]
    exact ⟨foldl_applyBidChange_strict u.bids h.1, foldl_applyAskChange_strict u.asks h.2⟩

/-- Absence of duplicate prices within each side of a snapshot event. -/
def snapshotDistinct (s : DepthSnapshot) : Prop :=
  distinctPrices s.bids ∧ distinctPrices s.asks

instance (s : DepthSnapshot) : Decidable (snapshotDistinct s) :=
  inferInstanceAs (Decidable (distinctPrices s.bids ∧ distinctPrices s.asks))

/-- Well-formedness of a feed event: snapshots carry no duplicate price on
either side; deltas are unrestricted. -/
def eventOk : MarketEvent → Prop
  | MarketEvent.snapshot s => snapshotDistinct s
  | MarketEvent.update _ => True

instance (e : MarketEvent) : Decidable (eventOk e) := by
  cases e with
  | snapshot s => exact inferInstanceAs (Decidable (snapshotDistinct s))
  | update u => exact inferInstanceAs (Decidable True)

/-- The function `apply_snapshots` establishes the ladder invariant whenever the
snapshot has no duplicate price on either side. -/
theorem apply_snapshots_invariant (b : OrderBook) (s : DepthSnapshot)
    (h : snapshotDistinct s) : ladderInvariant (b.apply_snapshots s) := by
  constructor
  · exact strictBid_of_sorted_distinct (List.sorted_insertionSort bidOrder s.bids)
      (distinctPrices_of_perm (List.perm_insertionSort bidOrder s.bids).symm h.1)
  · exact strictAsk_of_sorted_distinct (List.sorted_insertionSort askOrder s.asks)
      (distinctPrices_of_perm (List.perm_insertionSort askOrder s.asks).symm h.2)

/-- Claim C7 (counterexample).  The claim asserts the ladder invariant after
every finite sequence of snapshot and delta applications, but
`apply_snapshots` never deduplicates: applying a snapshot whose bid list
repeats price 100 to the (invariant-satisfying) initial book yields a bid
side that is not strictly descending. -/
theorem C7_duplicate_snapshot_counterexample :
    ladderInvariant OrderBook.initBook ∧
    ¬ ladderInvariant
        (OrderBook.applyEvents OrderBook.initBook
          [MarketEvent.snapshot ⟨"BTCUSDT", [⟨100, 1⟩, ⟨100, 2⟩], [], 10⟩]) := by
  decide

/-- Claim C7 (amended).  Starting from any book satisfying the ladder
invariant, after any finite sequence of snapshot and delta applications in
which every applied snapshot has pairwise-distinct prices on each side
(deltas unrestricted), the bids are strictly descending and the asks
strictly ascending — in particular no side holds a duplicate price. -/
theorem C7_ladder_invariant (es : List MarketEvent) :
    ∀ (b : OrderBook), ladderInvariant b → (∀ e ∈ es, eventOk e) →
      ladderInvariant (b.applyEvents es) := by
  induction es with
  | nil => exact fun b hb _ => hb
  | cons e es ih =>
    intro b hb hok
    have hcur : ladderInvariant (b.applyEvent e) := by
      cases e with
      | snapshot s =>
        exact apply_snapshots_invariant b s
          (hok (MarketEvent.snapshot s) (List.mem_cons_self (MarketEvent.snapshot s) es))
      | update u => exact apply_updates_invariant b u hb
    exact ih (b.applyEvent e) hcur (fun e' he' => hok e' (List.mem_cons_of_mem e he'))

/-- Witness for C7: the amended theorem at a concrete two-event feed — a
duplicate-free snapshot followed by a delta that inserts, updates and
removes levels. -/
theorem C7_ladder_invariant_witness :
    (ladderInvariant OrderBook.initBook ∧
      eventOk (MarketEvent.snapshot ⟨"BTCUSDT", [⟨99, 1⟩, ⟨98, 2⟩], [⟨101, 1⟩], 10⟩) ∧
      eventOk (MarketEvent.update ⟨"BTCUSDT", [⟨99, 0⟩, ⟨97, 3⟩], [⟨102, 1⟩], 11, 12⟩)) ∧
    ladderInvariant
      (OrderBook.applyEvents OrderBook.initBook
        [MarketEvent.snapshot ⟨"BTCUSDT", [⟨99, 1⟩, ⟨98, 2⟩], [⟨101, 1⟩], 10⟩,
          MarketEvent.update ⟨"BTCUSDT", [⟨99, 0⟩, ⟨97, 3⟩], [⟨102, 1⟩], 11, 12⟩]) :=
  ⟨⟨by decide, by decide, by decide⟩,
    C7_ladder_invariant
      [MarketEvent.snapshot ⟨"BTCUSDT", [⟨99, 1⟩, ⟨98, 2⟩], [⟨101, 1⟩], 10⟩,
        MarketEvent.update ⟨"BTCUSDT", [⟨99, 0⟩, ⟨97, 3⟩], [⟨102, 1⟩], 11, 12⟩]
      OrderBook.initBook (by decide) (by decide)⟩

/-- Claim C8: applying the same snapshot twice yields the book obtained by
applying it once.  `apply_snapshots` discards the previous book state
entirely, so the second application reproduces the first. -/
theorem C8_snapshot_idempotent (b : OrderBook) (s : DepthSnapshot) :
    (b.apply_snapshots s).apply_snapshots s = b.apply_snapshots s :=
  rfl

namespace RiskManagerMod

/-- Embedding of `Side` from `src/execution/mod.rs`, used by `src/risk_manager/mod.rs`. -/
inductive Side where
  | BUY
  | SELL
  deriving DecidableEq

/-- Embedding of `OrderRequest` from `src/risk_manager/mod.rs`. -/
structure OrderRequest where
  entry_price : ℚ
  quantity : ℚ
  stop_loss : ℚ
  side : Side

/-- Embedding of `AccountState` from `src/risk_manager/mod.rs`. -/
structure AccountState where
  current_position : ℚ
  max_position : ℚ
  price : ℚ
  account_balance : ℚ
  unrealised_pnl : ℚ

/-- Embedding of `RiskCheckResult` from `src/risk_manager/mod.rs`. -/
inductive RiskCheckResult where
  | REJECTED
  | PASSED
  | WARNING
  deriving DecidableEq

/-- Embedding of `RiskConfig` from `src/risk_manager/mod.rs`. -/
structure RiskConfig where
  max_position_pct : ℚ
  warn_position_pct : ℚ
  max_drawdown_pct : ℚ
  max_potential_loss : ℚ

/-- Embedding of `RiskConfig::check_quantity` from `src/risk_manager/mod.rs`: reject a
non-positive quantity, otherwise pass.  No account state is consulted. -/
def RiskConfig.check_quantity (_cfg : RiskConfig) (req : OrderRequest) : RiskCheckResult :=
  if req.quantity ≤ 0 then RiskCheckResult.REJECTED else RiskCheckResult.PASSED

/-- Embedding of `RiskConfig::check_balance` from `src/risk_manager/mod.rs`. -/
def RiskConfig.check_balance (_cfg : RiskConfig) (state : AccountState)
    (_req : OrderRequest) : RiskCheckResult :=
  if state.account_balance ≤ 0 then RiskCheckResult.REJECTED else RiskCheckResult.PASSED

/-- Embedding of `RiskConfig::check_drawdown` from `src/risk_manager/mod.rs`.  With a
stop-loss, the per-unit loss is the side-signed difference (`entry − stop`
for BUY, `stop − entry` for SELL — not an absolute value); scaled to a
percentage of the balance, it is compared against `max_drawdown_pct`.
Without a stop-loss, a hardcoded `default_max_loss_pct = 20` enters as the
factor `20 * 100` on the prospective position value, compared against the
absolute threshold `max_potential_loss`. -/
def RiskConfig.check_drawdown (cfg : RiskConfig) (state : AccountState)
    (req : OrderRequest) : RiskCheckResult :=
  if req.stop_loss ≠ 0 then
    let potential_loss_per_unit :=
      match req.side with
      | Side.BUY => req.entry_price - req.stop_loss
      | Side.SELL => req.stop_loss - req.entry_price
    let total_potential_loss := potential_loss_per_unit * req.quantity
    let drawdown_pct := total_potential_loss / state.account_balance * 100
    if drawdown_pct > cfg.max_drawdown_pct then RiskCheckResult.REJECTED
    else RiskCheckResult.PASSED
  else
    let default_max_loss_pct : ℚ := 20
    let total_potential_position := state.current_position + req.quantity
    let position_value := total_potential_position * req.entry_price
    let potential_loss := position_value * (default_max_loss_pct * 100)
    if potential_loss > cfg.max_potential_loss then RiskCheckResult.REJECTED
    else RiskCheckResult.PASSED

/-- The side-signed per-unit loss computed by `check_drawdown`. -/
def sidedLoss (req : OrderRequest) : ℚ :=
  match req.side with
  | Side.BUY => req.entry_price - req.stop_loss
  | Side.SELL => req.stop_loss - req.entry_price

end RiskManagerMod

/-- Claim C5 (counterexample).  The claim computes
`potentialLoss = |entry − stop| × quantity`.  For a BUY with the stop above
the entry (entry 100, stop 110, quantity 1, balance 100, maxDrawdownPct 5),
`|100 − 110| × 1` is 10% of the balance, which exceeds 5, so the claim
demands rejection — but the code uses the signed difference `entry − stop =
−10` and passes. -/
theorem C5_signed_loss_counterexample :
    RiskManagerMod.RiskConfig.check_drawdown ⟨0, 0, 5, 0⟩ ⟨0, 0, 0, 100, 0⟩
        ⟨100, 1, 110, RiskManagerMod.Side.BUY⟩
      = RiskManagerMod.RiskCheckResult.PASSED ∧
    abs ((100 : ℚ) - 110) * 1 / 100 * 100 > 5 ∧
    (110 : ℚ) ≠ 0 ∧ (0 : ℚ) < 100 := by
  refine ⟨?_, by norm_num, by norm_num, by norm_num⟩
  norm_num [RiskManagerMod.RiskConfig.check_drawdown]

/-- Claim C5 (amended).  For positive balance: with a stop-loss supplied,
`check_drawdown` rejects exactly when the side-signed loss
(`entry − stop` for BUY, `stop − entry` for SELL, not an absolute value)
times the quantity, as a percentage of the balance, exceeds
`max_drawdown_pct`; with no stop-loss, it rejects exactly when the
prospective position value times the hardcoded factor `20 × 100` exceeds
the absolute configurable threshold `max_potential_loss`. -/
theorem C5_drawdown_characterization (cfg : RiskManagerMod.RiskConfig)
    (state : RiskManagerMod.AccountState) (req : RiskManagerMod.OrderRequest)
    (hbal : 0 < state.account_balance) :
    (req.stop_loss ≠ 0 →
      (cfg.check_drawdown state req = RiskManagerMod.RiskCheckResult.REJECTED ↔
        RiskManagerMod.sidedLoss req * req.quantity / state.account_balance * 100
          > cfg.max_drawdown_pct)) ∧
    (req.stop_loss = 0 →
      (cfg.check_drawdown state req = RiskManagerMod.RiskCheckResult.REJECTED ↔
        (state.current_position + req.quantity) * req.entry_price * (20 * 100)
          > cfg.max_potential_loss)) := by
  have _hbal := hbal
  obtain ⟨entry, qty, stop, side⟩ := req
  refine ⟨fun hs => ?_, fun hs => ?_⟩
  · replace hs : stop ≠ 0 := hs
    cases side <;>
    · unfold RiskManagerMod.RiskConfig.check_drawdown RiskManagerMod.sidedLoss
      rw [if_pos hs]
      dsimp only
      split_ifs with hc
      · simp [hc]
      · simp [hc]
  · replace hs : stop = 0 := hs
    unfold RiskManagerMod.RiskConfig.check_drawdown
    rw [if_neg (by simp [hs])]
    dsimp only
    split_ifs with hc
    · simp [hc]
    · simp [hc]

/-- Witness for C5: the characterization at the counterexample's input,
with the positive-balance hypothesis discharged. -/
theorem C5_drawdown_characterization_witness :
    (0 : ℚ) < 100 ∧
    (((110 : ℚ) ≠ 0 →
      (RiskManagerMod.RiskConfig.check_drawdown ⟨0, 0, 5, 0⟩ ⟨0, 0, 0, 100, 0⟩
          ⟨100, 1, 110, RiskManagerMod.Side.BUY⟩ = RiskManagerMod.RiskCheckResult.REJECTED ↔
        RiskManagerMod.sidedLoss ⟨100, 1, 110, RiskManagerMod.Side.BUY⟩ * 1 / 100 * 100 > 5)) ∧
    ((110 : ℚ) = 0 →
      (RiskManagerMod.RiskConfig.check_drawdown ⟨0, 0, 5, 0⟩ ⟨0, 0, 0, 100, 0⟩
          ⟨100, 1, 110, RiskManagerMod.Side.BUY⟩ = RiskManagerMod.RiskCheckResult.REJECTED ↔
        ((0 : ℚ) + 1) * 100 * (20 * 100) > 0))) :=
  ⟨by decide,
    C5_drawdown_characterization ⟨0, 0, 5, 0⟩ ⟨0, 0, 0, 100, 0⟩
      ⟨100, 1, 110, RiskManagerMod.Side.BUY⟩ (by decide)⟩

/-- Claim C6: a request with non-positive quantity is rejected by
`check_quantity`, the Risk Gate's first check, whatever the configuration;
the check consults no account state at all. -/
theorem C6_zero_quantity_rejected (cfg : RiskManagerMod.RiskConfig)
    (req : RiskManagerMod.OrderRequest) (h : req.quantity ≤ 0) :
    cfg.check_quantity req = RiskManagerMod.RiskCheckResult.REJECTED := by
  unfold RiskManagerMod.RiskConfig.check_quantity
  rw [if_pos h]

/-- Witness for C6: a quantity-zero request is rejected. -/
theorem C6_zero_quantity_rejected_witness :
    (0 : ℚ) ≤ 0 ∧
    RiskManagerMod.RiskConfig.check_quantity ⟨1, 1, 1, 1⟩
        ⟨100, 0, 98, RiskManagerMod.Side.BUY⟩ = RiskManagerMod.RiskCheckResult.REJECTED := by
  refine ⟨le_refl 0, ?_⟩
  exact C6_zero_quantity_rejected ⟨1, 1, 1, 1⟩ ⟨100, 0, 98, RiskManagerMod.Side.BUY⟩
    (by decide)

/-- Embedding of `PositionManager` from `src/position_manager.rs`, reduced to the field
its sizing method reads (`risk_per_trade`; the position list and database
handle play no part in `calculate_position_size`). -/
structure PositionManager where
  risk_per_trade : ℚ

/-- Embedding of `PositionManager::calculate_position_size` from
`src/position_manager.rs`: risk amount `balance × risk_per_trade` divided
by the per-unit risk `|entry − stop|`, returning 0 when the per-unit risk
is 0. -/
def PositionManager.calculate_position_size (pm : PositionManager)
    (account_balance entry_price stop_loss : ℚ) : ℚ :=
  let risk_amount := account_balance * pm.risk_per_trade
  let risk_per_unit := abs (entry_price - stop_loss)
  if risk_per_unit = 0 then 0 else risk_amount / risk_per_unit

/-- Claim C4: position sizing is `(balance × riskFraction) / |entry − stop|`
with the 0-denominator case clamped to 0, and the spec's example
`riskPerTrade = 0.02, balance = 10000, entry = 100, stop = 98` yields
exactly 100. -/
theorem C4_position_sizing (pm : PositionManager)
    (account_balance entry_price stop_loss : ℚ) :
    pm.calculate_position_size account_balance entry_price stop_loss
      = (if abs (entry_price - stop_loss) = 0 then 0
        else account_balance * pm.risk_per_trade / abs (entry_price - stop_loss)) ∧
    PositionManager.calculate_position_size ⟨2/100⟩ 10000 100 98 = 100 :=
  ⟨rfl, by norm_num [PositionManager.calculate_position_size]⟩

namespace RiskManagerFile

/-- Embedding of `AccountState` from `src/risk_manager.rs` (the second, file-level risk
manager variant; its fields differ from the one in
`src/risk_manager/mod.rs`). -/
structure AccountState where
  current_position : ℚ
  max_position : ℚ
  last_price : ℚ
  entry_price : ℚ
  account_balance : ℚ
  unrealised_pnl : ℚ

/-- Embedding of `RiskManager::check_stop_loss` for `AccountState` from
`src/risk_manager.rs`.  In both position branches the source computes the
stop price and the comparison against `current_price`, then discards the
comparison (`let _ = ...`) and returns `true` unconditionally; with no
position it returns `false`.  The discarded comparisons are kept here as
unused bindings. -/
def AccountState.check_stop_loss (state : AccountState)
    (current_price stop_loss_pct : ℚ) : Bool :=
  if state.current_position > 0 then
    let stop_price := state.entry_price * (1 - stop_loss_pct)
    let _discarded := decide (current_price ≤ stop_price)
    true
  else if state.current_position < 0 then
    let stop_price := state.entry_price * (1 + stop_loss_pct)
    let _discarded := decide (current_price ≥ stop_price)
    true
  else
    false

end RiskManagerFile

/-- Claim C10: `check_stop_loss` returns `true` exactly when
`current_position ≠ 0`, and its result does not depend on `current_price`
or `stop_loss_pct` — the stop-price comparison is computed and discarded. -/
theorem C10_stop_loss_ignores_price (state : RiskManagerFile.AccountState)
    (cp slp cp' slp' : ℚ) :
    (state.check_stop_loss cp slp = true ↔ state.current_position ≠ 0) ∧
    state.check_stop_loss cp slp = state.check_stop_loss cp' slp' := by
  unfold RiskManagerFile.AccountState.check_stop_loss
  rcases lt_trichotomy state.current_position 0 with h | h | h
  · rw [if_neg (asymm h), if_pos h]
    simp [ne_of_lt h]
  · rw [h]
    simp
  · rw [if_pos h]
    simp [ne_of_gt h]

namespace GridData

/-- Embedding of `Side` from the `data` module consumed by
`src/strategy/grid_strategy.rs` (variants `Buy`/`Sell`, as constructed
throughout the grid, engine and store code). -/
inductive Side where
  | Buy
  | Sell
  deriving DecidableEq

/-- Embedding of `OrderStatus` from the `data` module consumed by
`src/strategy/grid_strategy.rs` and `src/store.rs` (variants `New`,
`Filled`, `Rejected`). -/
inductive OrderStatus where
  | New
  | Filled
  | Rejected
  deriving DecidableEq

/-- Embedding of `GridOrder` from the `data` module, with the fields constructed in
`src/strategy/grid_strategy.rs` (`client_oid`, `symbol`, `level`, `side`,
`quantity`, `active`, `status`). -/
structure GridOrder where
  client_oid : String
  symbol : String
  level : ℚ
  side : Side
  quantity : ℚ
  active : Bool
  status : OrderStatus
  deriving DecidableEq

end GridData

/-- Embedding of `GridStrategy` from `src/strategy/grid_strategy.rs`. -/
structure GridStrategy where
  grid_levels : List ℚ
  active_orders : List GridData.GridOrder
  center_price : ℚ
  grid_spacing : ℚ
  max_levels : ℕ

/-- Embedding of `GridStrategy::update_grid_on_fill` from
`src/strategy/grid_strategy.rs`: drop every active order with the filled
order's `client_oid`, then append exactly one replacement on the opposite
side — at `level × (1 − spacing)` when the replacement is a Buy, at
`level × (1 + spacing)` when it is a Sell — and return it.  The fresh
`Uuid::new_v4()` of the replacement is passed in as `fresh_oid`. -/
def GridStrategy.update_grid_on_fill (g : GridStrategy)
    (filled_order : GridData.GridOrder) (fresh_oid : String) :
    GridStrategy × Option GridData.GridOrder :=
  let active_orders := g.active_orders.filter
    (fun order => order.client_oid != filled_order.client_oid)
  let opposite_side :=
    match filled_order.side with
    | GridData.Side.Buy => GridData.Side.Sell
    | GridData.Side.Sell => GridData.Side.Buy
  let next_level :=
    match opposite_side with
    | GridData.Side.Buy => filled_order.level * (1 - g.grid_spacing)
    | GridData.Side.Sell => filled_order.level * (1 + g.grid_spacing)
  let opposite_order : GridData.GridOrder :=
    { client_oid := fresh_oid
      symbol := filled_order.symbol
      level := next_level
      side := opposite_side
      quantity := filled_order.quantity
      active := true
      status := GridData.OrderStatus.New }
  ({ g with active_orders := active_orders ++ [opposite_order] }, some opposite_order)

/-- Claim C9: on a fill, every active order carrying the filled order's id
is removed and exactly one opposite-side replacement is appended and
returned — at `level × (1 + spacing)` for a filled Buy and
`level × (1 − spacing)` for a filled Sell; concretely, a filled Buy at
level 100 with spacing 0.01 yields one Sell at 101, and a filled Sell at
100 yields one Buy at 99. -/
theorem C9_grid_replacement (g : GridStrategy) (filled : GridData.GridOrder)
    (oid : String) :
    (g.update_grid_on_fill filled oid).2
      = some
        { client_oid := oid
          symbol := filled.symbol
          level := filled.level *
            (match filled.side with
            | GridData.Side.Buy => 1 + g.grid_spacing
            | GridData.Side.Sell => 1 - g.grid_spacing)
          side :=
            match filled.side with
            | GridData.Side.Buy => GridData.Side.Sell
            | GridData.Side.Sell => GridData.Side.Buy
          quantity := filled.quantity
          active := true
          status := GridData.OrderStatus.New } ∧
    (g.update_grid_on_fill filled oid).1.active_orders
      = g.active_orders.filter (fun order => order.client_oid != filled.client_oid) ++
        [{ client_oid := oid
           symbol := filled.symbol
           level := filled.level *
             (match filled.side with
             | GridData.Side.Buy => 1 + g.grid_spacing
             | GridData.Side.Sell => 1 - g.grid_spacing)
           side :=
             match filled.side with
             | GridData.Side.Buy => GridData.Side.Sell
             | GridData.Side.Sell => GridData.Side.Buy
           quantity := filled.quantity
           active := true
           status := GridData.OrderStatus.New }] ∧
    (GridStrategy.update_grid_on_fill ⟨[], [], 100, 1/100, 0⟩
        ⟨"f1", "BTCUSDT", 100, GridData.Side.Buy, 1, true, GridData.OrderStatus.Filled⟩
        "n1").2
      = some ⟨"n1", "BTCUSDT", 101, GridData.Side.Sell, 1, true, GridData.OrderStatus.New⟩ ∧
    (GridStrategy.update_grid_on_fill ⟨[], [], 100, 1/100, 0⟩
        ⟨"f2", "BTCUSDT", 100, GridData.Side.Sell, 1, true, GridData.OrderStatus.Filled⟩
        "n2").2
      = some ⟨"n2", "BTCUSDT", 99, GridData.Side.Buy, 1, true, GridData.OrderStatus.New⟩ := by
  obtain ⟨co, sym, lvl, side, qty, act, st⟩ := filled
  cases side
  · exact ⟨rfl, rfl, by norm_num [GridStrategy.update_grid_on_fill],
      by norm_num [GridStrategy.update_grid_on_fill]⟩
  · exact ⟨rfl, rfl, by norm_num [GridStrategy.update_grid_on_fill],
      by norm_num [GridStrategy.update_grid_on_fill]⟩

end Sniper
